import Mathlib

/-!
Shallow embedding of the Pennsieve registrant-reconciliation scripts
(`generate_uninvited_list.py`, `verify_test_invites.py`, `preview_payload.py`,
`send_invites.py`) and proofs about their reconciliation core.

Python strings are modelled as lists of Unicode code points (`List Nat`);
`str.strip()` and `str.lower()` are embedded over the character classes the
scripts manipulate (ASCII letters and standard whitespace). A missing /
NaN spreadsheet cell is modelled as `none : Option PyStr`; Python's
`str(...)` conversion of a NaN cell yields the literal string "nan", which
`cellStr` reproduces.
-/

namespace PennsieveSync

/-- A Python string as a list of code points. -/
abbrev PyStr := List Nat

/-- Code points of a Lean string literal, for concrete test inputs. -/
def pyStr (s : String) : PyStr := s.toList.map Char.toNat

/-- Whitespace as recognised by Python `str.strip()` (space, tab, newline,
carriage return, vertical tab, form feed). -/
def pyIsSpace (n : Nat) : Bool :=
  n == 32 || n == 9 || n == 10 || n == 13 || n == 11 || n == 12

/-- Python `str.lower()` on one character: ASCII uppercase maps down. -/
def lowerChar (n : Nat) : Nat := if 65 ≤ n && n ≤ 90 then n + 32 else n

/-- Python `str.lower()`. -/
def lower (s : PyStr) : PyStr := s.map lowerChar

/-- Python `str.strip()`: remove leading and trailing whitespace. -/
def strip (s : PyStr) : PyStr :=
  List.rdropWhile pyIsSpace (List.dropWhile pyIsSpace s)

/-- The literal string "nan" produced by `str()` on a pandas NaN. -/
def nanStr : PyStr := pyStr "nan"

/-- The confirmation keyword expected by `send_invites.py`. -/
def yesStr : PyStr := pyStr "yes"

/-- Python `str(cell)` for a spreadsheet cell: a NaN cell prints as "nan". -/
def cellStr (v : Option PyStr) : PyStr :=
  match v with
  | none => nanStr
  | some s => s

/-- Registrant-side email normalization of `generate_uninvited_list.py`
(main, lines 122-125): `str(row[email_col]).strip().lower() if
pd.notna(row[email_col]) else None`, then rows with `not email or
email == 'nan' or email == ''` are skipped. -/
def normalizeGen (v : Option PyStr) : Option PyStr :=
  match v with
  | none => none
  | some s =>
    let email := lower (strip s)
    if email = [] ∨ email = nanStr then none else some email

/-- Registrant-side email normalization of `verify_test_invites.py`
(main, lines 111-115): `str(row.get('Email', '')).strip().lower()`, then
rows with `not email or email == 'nan'` are skipped. -/
def normalizeVerify (v : Option PyStr) : Option PyStr :=
  let email := lower (strip (cellStr v))
  if email = [] ∨ email = nanStr then none else some email

/-- Registrant-side email normalization of `preview_payload.py`
(main, lines 53-64): `str(row.get('Email', '')).strip()` with rows skipped
when `not email or email.lower() == 'nan'`; the surviving email keeps its
original case. -/
def normalizePreview (v : Option PyStr) : Option PyStr :=
  let email := strip (cellStr v)
  if email = [] ∨ lower email = nanStr then none else some email

/-- Registrant-side email normalization of `send_invites.py`
(main, lines 138-149), textually the same computation as the preview
script: strip only, skip when empty or case-insensitively "nan". -/
def normalizeSend (v : Option PyStr) : Option PyStr :=
  let email := strip (cellStr v)
  if email = [] ∨ lower email = nanStr then none else some email

/-- Email normalization as the specification words it: missing/null gives
None; otherwise convert to string, strip whitespace, lower-case; empty or
literal "nan" gives None; anything else gives Some of the normalized
string. -/
def normalizeSpec (v : Option PyStr) : Option PyStr :=
  match v with
  | none => none
  | some s =>
    let t := lower (strip s)
    if t = [] ∨ t = nanStr then none else some t

example : normalizeGen (some (pyStr " Ada@Example.com ")) = some (pyStr "ada@example.com") := by decide
example : normalizePreview (some (pyStr " Ada@Example.com ")) = some (pyStr "Ada@Example.com") := by decide
example : normalizeGen none = none := by decide
example : normalizeVerify none = none := by decide
example : normalizeGen (some (pyStr "  NaN ")) = none := by decide

/-- One entry of the JSON array returned by the membership endpoint; every
field is optional in the response. -/
structure RemoteMember where
  email : Option PyStr
  firstName : Option PyStr
  lastName : Option PyStr
  role : Option PyStr
deriving DecidableEq, Repr

/-- The per-member detail record built by `verify_test_invites.py`
(get_existing_members, lines 42-45). -/
structure MemberDetail where
  name : PyStr
  role : PyStr
deriving DecidableEq, Repr

/-- Detail record for one member: `f"{firstName} {lastName}".strip()` with
absent fields defaulting to the empty string, and role defaulting to
"N/A". -/
def mkDetail (m : RemoteMember) : MemberDetail :=
  { name := strip ((m.firstName.getD []) ++ pyStr " " ++ (m.lastName.getD []))
    role := m.role.getD (pyStr "N/A") }

/-- Python `set.add`: insertion-ordered model of a set of strings. -/
def setAdd (s : List PyStr) (k : PyStr) : List PyStr :=
  if k ∈ s then s else s ++ [k]

/-- Python dict assignment `d[k] = v`: replace the entry for `k` if present,
otherwise append it (last write wins). -/
def updateAssoc : List (PyStr × MemberDetail) → PyStr → MemberDetail → List (PyStr × MemberDetail)
  | [], k, v => [(k, v)]
  | (k1, v1) :: rest, k, v =>
    if k1 = k then (k, v) :: rest else (k1, v1) :: updateAssoc rest k v

/-- Python `d.get(k)` on the detail dict. -/
def lookupAssoc : List (PyStr × MemberDetail) → PyStr → Option MemberDetail
  | [], _ => none
  | (k1, v1) :: rest, k => if k1 = k then some v1 else lookupAssoc rest k

/-- The membership index of `verify_test_invites.py`: the email set plus the
email-to-detail dict, built together. -/
structure MembershipIndex where
  emails : List PyStr
  details : List (PyStr × MemberDetail)
deriving DecidableEq, Repr

/-- One iteration of the member loop of `verify_test_invites.py`
(get_existing_members, lines 38-45): members without an email field are
ignored; otherwise the lower-cased email enters the set and the dict. -/
def indexStep (idx : MembershipIndex) (m : RemoteMember) : MembershipIndex :=
  match m.email with
  | none => idx
  | some e =>
    let k := lower e
    { emails := setAdd idx.emails k
      details := updateAssoc idx.details k (mkDetail m) }

/-- The full index built from the response
(`verify_test_invites.py`, get_existing_members lines 36-48). -/
def buildIndex (ms : List RemoteMember) : MembershipIndex :=
  ms.foldl indexStep { emails := [], details := [] }

/-- The member loop of `generate_uninvited_list.py`
(get_existing_members, lines 32-35): only the email set is built. -/
def emailSetStep (s : List PyStr) (m : RemoteMember) : List PyStr :=
  match m.email with
  | none => s
  | some e => setAdd s (lower e)

/-- The existing-member email set of `generate_uninvited_list.py`. -/
def buildEmailSet (ms : List RemoteMember) : List PyStr :=
  ms.foldl emailSetStep []

/-- One input row: the raw Name and Email cells, either possibly NaN. -/
structure Registrant where
  name : Option PyStr
  email : Option PyStr
deriving DecidableEq, Repr

/-- The three-way classification of the reconciliation procedure. -/
inductive Category where
  | needsInvite
  | alreadyMember
  | skipped
deriving DecidableEq, Repr

/-- Classification decision for one row, as taken by the row loop of
`generate_uninvited_list.py` (main, lines 122-134): skipped when the
normalized email is absent, otherwise membership in the email set decides. -/
def classifyRow (emails : List PyStr) (r : Registrant) : Category :=
  match normalizeGen r.email with
  | none => Category.skipped
  | some e => if e ∈ emails then Category.alreadyMember else Category.needsInvite

/-- Row outcome of `verify_test_invites.py` (main, lines 110-129), which
additionally attaches `member_details.get(email)` to an already-member row. -/
inductive RowResult where
  | needsInvite
  | alreadyMember (info : Option MemberDetail)
  | skipped
deriving DecidableEq, Repr

/-- The per-row classification of `verify_test_invites.py`
(main, lines 110-129). -/
def classifyRowV (M : MembershipIndex) (r : Registrant) : RowResult :=
  match normalizeVerify r.email with
  | none => RowResult.skipped
  | some e =>
    if e ∈ M.emails then RowResult.alreadyMember (lookupAssoc M.details e)
    else RowResult.needsInvite

/-- The three partitions accumulated across the row loop. -/
structure ClassResult where
  needs : List Registrant
  members : List Registrant
  skipped : List Registrant
deriving DecidableEq, Repr

/-- The row loop: each row is appended, in input order, to exactly the
partition selected by `classifyRow`. -/
def classifyAll (emails : List PyStr) : List Registrant → ClassResult
  | [] => { needs := [], members := [], skipped := [] }
  | r :: rest =>
    let res := classifyAll emails rest
    match classifyRow emails r with
    | Category.needsInvite => { res with needs := r :: res.needs }
    | Category.alreadyMember => { res with members := r :: res.members }
    | Category.skipped => { res with skipped := r :: res.skipped }

/-- The boolean mask entry of `generate_uninvited_list.py`
(main, lines 122-134): False for a skipped row, else
`email not in existing_members`. -/
def uninvitedFlag (emails : List PyStr) (r : Registrant) : Bool :=
  match normalizeGen r.email with
  | none => false
  | some e => decide (e ∉ emails)

/-- The full `uninvited_mask` list (lines 118-129). -/
def uninvitedMask (emails : List PyStr) (rows : List Registrant) : List Bool :=
  rows.map (uninvitedFlag emails)

/-- Pandas boolean-mask row selection `df[mask]` (line 140). -/
def maskSelect : List Registrant → List Bool → List Registrant
  | [], _ => []
  | _ :: _, [] => []
  | r :: rs, b :: bs => if b then r :: maskSelect rs bs else maskSelect rs bs

/-- Outcome of the report stage of `generate_uninvited_list.py`: either the
early informational return, or the CSV write of the selected rows. -/
inductive GenReport where
  | noneFound
  | wroteFile (rows : List Registrant)
deriving DecidableEq, Repr

/-- The report stage (main, lines 149-158): when no row needs an invite the
script prints "No uninvited members found!" and returns before any write;
otherwise it writes the selected rows to the output CSV. -/
def reportStep (uninvited : List Registrant) : GenReport :=
  if uninvited.length = 0 then GenReport.noneFound else GenReport.wroteFile uninvited

/-- The classification-to-report tail of `generate_uninvited_list.py`'s main. -/
def genPipeline (emails : List PyStr) (rows : List Registrant) : GenReport :=
  reportStep (maskSelect rows (uninvitedMask emails rows))

/-- Python `name.split(' ', 1)` followed by the first/last extraction of the
scripts: first component is the text before the first space, second the
remainder (empty when there is no space). -/
def splitName : PyStr → PyStr × PyStr
  | [] => ([], [])
  | c :: rest =>
    if c = 32 then ([], rest)
    else
      let p := splitName rest
      (c :: p.1, p.2)

/-- One entry of the `invites` array POSTed to the API. -/
structure Invite where
  firstName : PyStr
  lastName : PyStr
  email : PyStr
  customMessage : PyStr
  inviteRole : PyStr
deriving DecidableEq, Repr

/-- The hard-coded custom message of the preview and send scripts. -/
def defaultMessage : PyStr := pyStr "Welcome to the Pennsieve Hackathon"

/-- The hard-coded default permission of the preview and send scripts. -/
def defaultPermission : PyStr := pyStr "manager"

/-- One iteration of the invite loop of `preview_payload.py`
(main, lines 53-72): strip the cells, split the name on the first space,
skip rows without a usable email, else emit the invite entry with
inviteRole "1". -/
def previewInvite (r : Registrant) : Option Invite :=
  let email := strip (cellStr r.email)
  let name := strip (cellStr r.name)
  let parts := splitName name
  if email = [] ∨ lower email = nanStr then none
  else some
    { firstName := parts.1
      lastName := parts.2
      email := email
      customMessage := defaultMessage
      inviteRole := pyStr "1" }

/-- The batch payload `{invites, role}`. -/
structure Payload where
  invites : List Invite
  role : PyStr
deriving DecidableEq, Repr

/-- The payload assembled by `preview_payload.py` (main, lines 74-78). -/
def previewPayload (rows : List Registrant) : Payload :=
  { invites := rows.filterMap previewInvite, role := defaultPermission }

/-- One entry of the intermediate invite list of `send_invites.py`
(main, lines 151-156). -/
structure RawInvite where
  email : PyStr
  first_name : PyStr
  last_name : PyStr
  invite_role : PyStr
deriving DecidableEq, Repr

/-- One iteration of the invite loop of `send_invites.py`
(main, lines 138-156): same strip/split/skip logic as the preview script. -/
def buildRawInvite (r : Registrant) : Option RawInvite :=
  let email := strip (cellStr r.email)
  let name := strip (cellStr r.name)
  let parts := splitName name
  if email = [] ∨ lower email = nanStr then none
  else some
    { email := email
      first_name := parts.1
      last_name := parts.2
      invite_role := pyStr "1" }

/-- The full invite list gathered by `send_invites.py`'s main loop. -/
def buildRawInvites (rows : List Registrant) : List RawInvite :=
  rows.filterMap buildRawInvite

/-- Field renaming done inside `send_invites_batch`
(`send_invites.py`, lines 30-38). -/
def toApiInvite (msg : PyStr) (i : RawInvite) : Invite :=
  { firstName := i.first_name
    lastName := i.last_name
    email := i.email
    customMessage := msg
    inviteRole := i.invite_role }

/-- Transport-level failure: the HTTP status and body when a response is
available, both absent on a pure network error. -/
structure HttpError where
  status : Option Nat
  body : Option PyStr
deriving DecidableEq, Repr

/-- Result dict returned by `send_invites_batch`
(`send_invites.py`, lines 50-65). -/
structure SendResult where
  success : Bool
  error : Option HttpError
deriving DecidableEq, Repr

/-- The body of `send_invites_batch` (`send_invites.py`, lines 21-65): the
payload is built from the gathered invites, the POST is issued once, and a
transport error is caught and turned into `{"success": False, ...}` - the
function neither retries nor raises. The POST response is the `resp`
argument of the embedding. -/
def send_invites_batch (invites : List RawInvite) (role msg : PyStr)
    (resp : Except HttpError Unit) : Payload × SendResult :=
  let payload : Payload := { invites := invites.map (toApiInvite msg), role := role }
  match resp with
  | Except.ok _ => (payload, { success := true, error := none })
  | Except.error e => (payload, { success := false, error := some e })

/-- Outcome of a membership fetch: the parsed value, or `sys.exit(code)`
after printing the error (status/body when available). -/
inductive FetchOutcome (α : Type) where
  | ok (value : α)
  | exited (code : Nat)
deriving DecidableEq, Repr

/-- `get_existing_members` of `generate_uninvited_list.py` (lines 16-45):
on success the email set, on any RequestException print the error plus
status/body when available and `sys.exit(1)`. -/
def getExistingMembersGen (resp : Except HttpError (List RemoteMember)) :
    FetchOutcome (List PyStr) :=
  match resp with
  | Except.ok ms => FetchOutcome.ok (buildEmailSet ms)
  | Except.error _ => FetchOutcome.exited 1

/-- `get_existing_members` of `verify_test_invites.py` (lines 20-55): same
abort-on-error shape, returning the set together with the detail dict. -/
def getExistingMembersVerify (resp : Except HttpError (List RemoteMember)) :
    FetchOutcome MembershipIndex :=
  match resp with
  | Except.ok ms => FetchOutcome.ok (buildIndex ms)
  | Except.error _ => FetchOutcome.exited 1

/-- Outcome of `send_invites.py`'s main after configuration checks:
`aborted` means the confirmation failed, "Aborted." was printed and no POST
was issued; `completed` means the POST was issued exactly once with the
recorded payload and main ran to normal termination, printing a summary
whose success flag is recorded. -/
inductive SendOutcome where
  | aborted
  | completed (posted : Payload) (summarySuccess : Bool)
deriving DecidableEq, Repr

/-- The confirmation-to-summary tail of `send_invites.py`'s main
(lines 130-175): `input(...)` is the `confirmation` argument and the POST
response is `resp`. The guard is `response.lower() != 'yes'`. -/
def sendMain (rows : List Registrant) (confirmation : PyStr) (role : PyStr)
    (resp : Except HttpError Unit) : SendOutcome :=
  if lower confirmation ≠ yesStr then SendOutcome.aborted
  else
    let invites := buildRawInvites rows
    let pr := send_invites_batch invites role defaultMessage resp
    SendOutcome.completed pr.1 pr.2.success

example :
    previewInvite { name := some (pyStr "Ada Lovelace"), email := some (pyStr " Ada@Example.com ") } =
      some { firstName := pyStr "Ada", lastName := pyStr "Lovelace",
             email := pyStr "Ada@Example.com", customMessage := defaultMessage,
             inviteRole := pyStr "1" } := by decide

example :
    sendMain [] (pyStr "YES") defaultPermission (Except.ok ()) =
      SendOutcome.completed { invites := [], role := defaultPermission } true := by decide

example :
    classifyRow [] { name := some (pyStr "Ada Lovelace"), email := some (pyStr " Ada@Example.com ") } =
      Category.needsInvite := by decide

/-! Helper lemmas about the string model. -/

lemma lowerChar_lowerChar (n : Nat) : lowerChar (lowerChar n) = lowerChar n := by
  by_cases h : (65 ≤ n && n ≤ 90) = true
  · have h1 : ¬ ((65 ≤ n + 32 && n + 32 ≤ 90) = true) := by
      simp only [Bool.and_eq_true, decide_eq_true_eq] at h ⊢
      omega
    simp only [lowerChar, h, if_true]
    rw [if_neg h1]
  · simp only [lowerChar]
    simp only [if_neg h]

lemma lower_lower (s : PyStr) : lower (lower s) = lower s := by
  induction s with
  | nil => rfl
  | cons a t ih =>
    simp only [lower, List.map_cons] at ih ⊢
    rw [lowerChar_lowerChar]
    exact congrArg _ (by simpa [lower] using ih)

lemma pyIsSpace_lowerChar (n : Nat) : pyIsSpace (lowerChar n) = pyIsSpace n := by
  rw [Bool.eq_iff_iff]
  simp only [pyIsSpace, lowerChar, Bool.or_eq_true, beq_iff_eq]
  split
  · next h =>
    simp only [Bool.and_eq_true, decide_eq_true_eq] at h
    omega
  · exact Iff.rfl

lemma dropWhile_lower (s : PyStr) :
    List.dropWhile pyIsSpace (lower s) = lower (List.dropWhile pyIsSpace s) := by
  induction s with
  | nil => rfl
  | cons a t ih =>
    by_cases h : pyIsSpace a = true
    · rw [show lower (a :: t) = lowerChar a :: lower t from rfl]
      rw [List.dropWhile_cons_of_pos (by rw [pyIsSpace_lowerChar]; exact h)]
      rw [List.dropWhile_cons_of_pos h]
      exact ih
    · rw [show lower (a :: t) = lowerChar a :: lower t from rfl]
      rw [List.dropWhile_cons_of_neg (by rw [pyIsSpace_lowerChar]; exact h)]
      rw [List.dropWhile_cons_of_neg h]
      rfl

lemma rdropWhile_lower (s : PyStr) :
    List.rdropWhile pyIsSpace (lower s) = lower (List.rdropWhile pyIsSpace s) := by
  unfold List.rdropWhile
  rw [show (lower s).reverse = lower s.reverse by simp [lower]]
  rw [dropWhile_lower]
  simp [lower]

lemma strip_lower (s : PyStr) : strip (lower s) = lower (strip s) := by
  unfold strip
  rw [dropWhile_lower, rdropWhile_lower]

lemma dropWhile_prefix_self (p : Nat → Bool) (B t : List Nat)
    (h : List.dropWhile p (B ++ t) = B ++ t) : List.dropWhile p B = B := by
  cases B with
  | nil => rfl
  | cons b B2 =>
    by_cases hp : p b = true
    · exfalso
      rw [List.cons_append, List.dropWhile_cons_of_pos hp] at h
      have hle := (List.dropWhile_suffix (l := B2 ++ t) p).length_le
      rw [h] at hle
      simp only [List.length_cons, List.length_append] at hle
      omega
    · rw [List.dropWhile_cons_of_neg hp]

lemma strip_strip (s : PyStr) : strip (strip s) = strip s := by
  unfold strip
  obtain ⟨t, ht⟩ := List.rdropWhile_prefix pyIsSpace (List.dropWhile pyIsSpace s)
  have hA : List.dropWhile pyIsSpace (List.dropWhile pyIsSpace s) =
      List.dropWhile pyIsSpace s := List.dropWhile_idempotent pyIsSpace s
  have hB := dropWhile_prefix_self pyIsSpace _ t (by rw [ht]; exact hA)
  rw [hB, List.rdropWhile_idempotent]

lemma lower_eq_nil_iff (s : PyStr) : lower s = [] ↔ s = [] := by
  simp [lower]

/-! Helper lemmas about normalization. -/

lemma normalizeVerify_eq_gen (v : Option PyStr) : normalizeVerify v = normalizeGen v := by
  cases v with
  | none => decide
  | some s => rfl

lemma normalizeGen_eq_map_lower (v : Option PyStr) :
    normalizeGen v = (normalizePreview v).map lower := by
  cases v with
  | none => decide
  | some s =>
    simp only [normalizeGen, normalizePreview, cellStr]
    by_cases h1 : strip s = []
    · simp [h1, lower]
    · by_cases h2 : lower (strip s) = nanStr
      · simp [h2, (lower_eq_nil_iff (strip s)).not.mpr h1]
      · have h3 : ¬ lower (strip s) = [] := fun h => h1 ((lower_eq_nil_iff _).mp h)
        simp [h1, h2, h3]

/-! Helper lemmas about the classifier. -/

lemma classifyAll_needs (emails : List PyStr) (R : List Registrant) :
    (classifyAll emails R).needs =
      R.filter (fun r => decide (classifyRow emails r = Category.needsInvite)) := by
  induction R with
  | nil => rfl
  | cons r rest ih =>
    cases h : classifyRow emails r with
    | needsInvite => simp [classifyAll, h, List.filter_cons, ih]
    | alreadyMember => simp [classifyAll, h, List.filter_cons, ih]
    | skipped => simp [classifyAll, h, List.filter_cons, ih]

lemma classifyAll_members (emails : List PyStr) (R : List Registrant) :
    (classifyAll emails R).members =
      R.filter (fun r => decide (classifyRow emails r = Category.alreadyMember)) := by
  induction R with
  | nil => rfl
  | cons r rest ih =>
    cases h : classifyRow emails r with
    | needsInvite => simp [classifyAll, h, List.filter_cons, ih]
    | alreadyMember => simp [classifyAll, h, List.filter_cons, ih]
    | skipped => simp [classifyAll, h, List.filter_cons, ih]

lemma classifyAll_skipped (emails : List PyStr) (R : List Registrant) :
    (classifyAll emails R).skipped =
      R.filter (fun r => decide (classifyRow emails r = Category.skipped)) := by
  induction R with
  | nil => rfl
  | cons r rest ih =>
    cases h : classifyRow emails r with
    | needsInvite => simp [classifyAll, h, List.filter_cons, ih]
    | alreadyMember => simp [classifyAll, h, List.filter_cons, ih]
    | skipped => simp [classifyAll, h, List.filter_cons, ih]

lemma classifyAll_length (emails : List PyStr) (R : List Registrant) :
    (classifyAll emails R).needs.length + (classifyAll emails R).members.length +
      (classifyAll emails R).skipped.length = R.length := by
  induction R with
  | nil => rfl
  | cons r rest ih =>
    cases h : classifyRow emails r with
    | needsInvite => simp only [classifyAll, h, List.length_cons]; omega
    | alreadyMember => simp only [classifyAll, h, List.length_cons]; omega
    | skipped => simp only [classifyAll, h, List.length_cons]; omega

lemma uninvitedFlag_eq (emails : List PyStr) (r : Registrant) :
    uninvitedFlag emails r = decide (classifyRow emails r = Category.needsInvite) := by
  unfold uninvitedFlag classifyRow
  cases h : normalizeGen r.email with
  | none => simp
  | some e => by_cases he : e ∈ emails <;> simp [he]

lemma maskSelect_map (f : Registrant → Bool) (R : List Registrant) :
    maskSelect R (R.map f) = R.filter f := by
  induction R with
  | nil => rfl
  | cons r rest ih =>
    by_cases h : f r <;> simp [maskSelect, List.filter_cons, h, ih]

lemma maskSelect_uninvited (emails : List PyStr) (R : List Registrant) :
    maskSelect R (uninvitedMask emails R) = (classifyAll emails R).needs := by
  unfold uninvitedMask
  rw [maskSelect_map, classifyAll_needs]
  have hf : uninvitedFlag emails =
      fun r => decide (classifyRow emails r = Category.needsInvite) :=
    funext (uninvitedFlag_eq emails)
  rw [hf]

/-! Helper lemmas about the membership index. -/

lemma mem_setAdd (s : List PyStr) (k k2 : PyStr) :
    k2 ∈ setAdd s k ↔ k2 = k ∨ k2 ∈ s := by
  unfold setAdd
  by_cases h : k ∈ s
  · rw [if_pos h]
    constructor
    · exact Or.inr
    · rintro (rfl | h2)
      · exact h
      · exact h2
  · rw [if_neg h]
    simp only [List.mem_append, List.mem_singleton]
    tauto

lemma lookup_updateAssoc (d : List (PyStr × MemberDetail)) (k : PyStr) (v : MemberDetail)
    (k2 : PyStr) :
    lookupAssoc (updateAssoc d k v) k2 = if k = k2 then some v else lookupAssoc d k2 := by
  induction d with
  | nil => simp [updateAssoc, lookupAssoc]
  | cons kv rest ih =>
    obtain ⟨k1, v1⟩ := kv
    by_cases h1 : k1 = k
    · by_cases h2 : k = k2 <;> simp [updateAssoc, lookupAssoc, h1, h2]
    · by_cases h2 : k1 = k2 <;> by_cases h3 : k = k2 <;>
        simp_all [updateAssoc, lookupAssoc]

/-- The in-sync invariant of the email set and the detail dict. -/
def SyncInv (idx : MembershipIndex) : Prop :=
  ∀ k, k ∈ idx.emails ↔ (lookupAssoc idx.details k).isSome = true

lemma syncInv_step (idx : MembershipIndex) (m : RemoteMember) (h : SyncInv idx) :
    SyncInv (indexStep idx m) := by
  unfold indexStep
  cases hm : m.email with
  | none => exact h
  | some e =>
    intro k
    simp only [mem_setAdd, lookup_updateAssoc]
    by_cases hk : lower e = k
    · simp [hk]
    · have hk2 : ¬ (k = lower e) := fun hx => hk hx.symm
      simp only [if_neg hk]
      rw [h k]
      tauto

lemma buildIndex_syncInv (ms : List RemoteMember) : SyncInv (buildIndex ms) := by
  unfold buildIndex
  have hgen : ∀ idx, SyncInv idx → SyncInv (List.foldl indexStep idx ms) := by
    induction ms with
    | nil => intro idx h; exact h
    | cons m rest ih => intro idx h; exact ih _ (syncInv_step idx m h)
  refine hgen _ ?_
  intro k
  simp [lookupAssoc]

/-! The claims. -/

/-- C1: for every registrant sequence R and membership email set, the
classifier partitions are each stable sublists of R (input order preserved),
their lengths add up to the length of R (every row accounted for exactly
once), their union is exactly R, they are pairwise disjoint, and the rows
selected by the uninvited mask of `generate_uninvited_list.py` are precisely
the needs-invite partition. -/
theorem c1_classifier_partition (emails : List PyStr) (R : List Registrant) :
    ((classifyAll emails R).needs.Sublist R ∧
      (classifyAll emails R).members.Sublist R ∧
      (classifyAll emails R).skipped.Sublist R) ∧
    ((classifyAll emails R).needs.length + (classifyAll emails R).members.length +
       (classifyAll emails R).skipped.length = R.length) ∧
    (∀ r, r ∈ R ↔
       (r ∈ (classifyAll emails R).needs ∨ r ∈ (classifyAll emails R).members ∨
        r ∈ (classifyAll emails R).skipped)) ∧
    (∀ r, ¬(r ∈ (classifyAll emails R).needs ∧ r ∈ (classifyAll emails R).members) ∧
          ¬(r ∈ (classifyAll emails R).needs ∧ r ∈ (classifyAll emails R).skipped) ∧
          ¬(r ∈ (classifyAll emails R).members ∧ r ∈ (classifyAll emails R).skipped)) ∧
    maskSelect R (uninvitedMask emails R) = (classifyAll emails R).needs := by
  refine ⟨⟨?_, ?_, ?_⟩, classifyAll_length emails R, ?_, ?_, maskSelect_uninvited emails R⟩
  · rw [classifyAll_needs]
    exact List.filter_sublist R
  · rw [classifyAll_members]
    exact List.filter_sublist R
  · rw [classifyAll_skipped]
    exact List.filter_sublist R
  · intro r
    rw [classifyAll_needs, classifyAll_members, classifyAll_skipped]
    simp only [List.mem_filter, decide_eq_true_eq]
    constructor
    · intro hr
      cases h : classifyRow emails r with
      | needsInvite => exact Or.inl ⟨hr, rfl⟩
      | alreadyMember => exact Or.inr (Or.inl ⟨hr, rfl⟩)
      | skipped => exact Or.inr (Or.inr ⟨hr, rfl⟩)
    · rintro (⟨hr, _⟩ | ⟨hr, _⟩ | ⟨hr, _⟩) <;> exact hr
  · intro r
    rw [classifyAll_needs, classifyAll_members, classifyAll_skipped]
    simp only [List.mem_filter, decide_eq_true_eq]
    refine ⟨?_, ?_, ?_⟩ <;> rintro ⟨⟨_, h1⟩, ⟨_, h2⟩⟩ <;> rw [h1] at h2 <;>
      exact Category.noConfusion h2

/-- Closed instantiation of C1: at a concrete three-row input, the Ada row
lands in the needs-invite partition by the exactly-once conjunct. -/
theorem c1_classifier_partition_witness :
    ({ name := some (pyStr "Ada Lovelace"), email := some (pyStr " Ada@Example.com ") } : Registrant) ∈
      (classifyAll [pyStr "grace@x.com"]
        [{ name := some (pyStr "Ada Lovelace"), email := some (pyStr " Ada@Example.com ") },
         { name := some (pyStr "Grace Hopper"), email := some (pyStr "grace@x.com") },
         { name := some (pyStr "No Email"), email := none }]).needs ∨
    ({ name := some (pyStr "Ada Lovelace"), email := some (pyStr " Ada@Example.com ") } : Registrant) ∈
      (classifyAll [pyStr "grace@x.com"]
        [{ name := some (pyStr "Ada Lovelace"), email := some (pyStr " Ada@Example.com ") },
         { name := some (pyStr "Grace Hopper"), email := some (pyStr "grace@x.com") },
         { name := some (pyStr "No Email"), email := none }]).members ∨
    ({ name := some (pyStr "Ada Lovelace"), email := some (pyStr " Ada@Example.com ") } : Registrant) ∈
      (classifyAll [pyStr "grace@x.com"]
        [{ name := some (pyStr "Ada Lovelace"), email := some (pyStr " Ada@Example.com ") },
         { name := some (pyStr "Grace Hopper"), email := some (pyStr "grace@x.com") },
         { name := some (pyStr "No Email"), email := none }]).skipped :=
  ((c1_classifier_partition [pyStr "grace@x.com"]
    [{ name := some (pyStr "Ada Lovelace"), email := some (pyStr " Ada@Example.com ") },
     { name := some (pyStr "Grace Hopper"), email := some (pyStr "grace@x.com") },
     { name := some (pyStr "No Email"), email := none }]).2.2.1 _).mp (by decide)

/-- C2: per-row classification rules: a row whose normalized email is None is
always skipped, whatever the index holds; a row whose normalized email is a
key of the index is always already-member, with the detail attached from the
index dict; one whose normalized email is absent from the index is always
needs-invite. Stated for both the generate-script and the verify-script
classifiers. -/
theorem c2_row_rules (M : MembershipIndex) (r : Registrant) :
    (normalizeGen r.email = none →
       classifyRow M.emails r = Category.skipped ∧ classifyRowV M r = RowResult.skipped) ∧
    (∀ e, normalizeGen r.email = some e → e ∈ M.emails →
       classifyRow M.emails r = Category.alreadyMember ∧
       classifyRowV M r = RowResult.alreadyMember (lookupAssoc M.details e)) ∧
    (∀ e, normalizeGen r.email = some e → e ∉ M.emails →
       classifyRow M.emails r = Category.needsInvite ∧
       classifyRowV M r = RowResult.needsInvite) := by
  have hv : normalizeVerify r.email = normalizeGen r.email := normalizeVerify_eq_gen r.email
  refine ⟨?_, ?_, ?_⟩
  · intro h
    constructor
    · simp [classifyRow, h]
    · simp [classifyRowV, hv, h]
  · intro e h he
    constructor
    · simp [classifyRow, h, he]
    · simp [classifyRowV, hv, h, he]
  · intro e h he
    constructor
    · simp [classifyRow, h, he]
    · simp [classifyRowV, hv, h, he]

/-- Closed instantiation of C2: one skipped row, one already-member row with
its attached detail, one needs-invite row, against a one-member index. -/
theorem c2_row_rules_witness :
    classifyRowV
        { emails := [pyStr "grace@x.com"],
          details := [(pyStr "grace@x.com", { name := pyStr "Grace Hopper", role := pyStr "manager" })] }
        { name := some (pyStr "No Email"), email := some (pyStr "nan") } = RowResult.skipped ∧
    classifyRowV
        { emails := [pyStr "grace@x.com"],
          details := [(pyStr "grace@x.com", { name := pyStr "Grace Hopper", role := pyStr "manager" })] }
        { name := some (pyStr "Grace Hopper"), email := some (pyStr "Grace@X.com") } =
      RowResult.alreadyMember (some { name := pyStr "Grace Hopper", role := pyStr "manager" }) ∧
    classifyRow [pyStr "grace@x.com"]
        { name := some (pyStr "Ada Lovelace"), email := some (pyStr " Ada@Example.com ") } =
      Category.needsInvite :=
  ⟨((c2_row_rules
      { emails := [pyStr "grace@x.com"],
        details := [(pyStr "grace@x.com", { name := pyStr "Grace Hopper", role := pyStr "manager" })] }
      { name := some (pyStr "No Email"), email := some (pyStr "nan") }).1 (by decide)).2,
   (((c2_row_rules
      { emails := [pyStr "grace@x.com"],
        details := [(pyStr "grace@x.com", { name := pyStr "Grace Hopper", role := pyStr "manager" })] }
      { name := some (pyStr "Grace Hopper"), email := some (pyStr "Grace@X.com") }).2.1
      (pyStr "grace@x.com") (by decide) (by decide)).2).trans (by decide),
   ((c2_row_rules
      { emails := [pyStr "grace@x.com"],
        details := [(pyStr "grace@x.com", { name := pyStr "Grace Hopper", role := pyStr "manager" })] }
      { name := some (pyStr "Ada Lovelace"), email := some (pyStr " Ada@Example.com ") }).2.2
      (pyStr "ada@example.com") (by decide) (by decide)).1⟩

/-- C3: the registrant-side normalization of the uninvited-list and of the
verification script both compute exactly the specification's steps: None on
a missing cell, else string-convert, strip, lower-case, and None again on
the empty string or the literal string "nan", Some of the normalized string
otherwise. -/
theorem c3_normalization_steps (v : Option PyStr) :
    normalizeGen v = normalizeSpec v ∧ normalizeVerify v = normalizeSpec v := by
  refine ⟨?_, ?_⟩
  · cases v <;> rfl
  · rw [normalizeVerify_eq_gen]
    cases v <;> rfl

/-- C4 counterexample: the four scripts do not all yield the same normalized
string. On the raw cell " A@B.com " the uninvited-list script produces the
lower-cased "a@b.com" while the payload-preview script keeps the original
case "A@B.com". -/
theorem c4_normalization_counterexample :
    normalizeGen (some (pyStr " A@B.com ")) ≠ normalizePreview (some (pyStr " A@B.com ")) := by
  decide

/-- C4 amended: all four scripts agree on the None/Some decision for every
raw cell; the uninvited-list and verification scripts agree exactly with
each other, the preview and sending scripts agree exactly with each other,
and the former pair returns precisely the lower-cased form of what the
latter pair returns (which preserves the original case). -/
theorem c4_normalization_amended (v : Option PyStr) :
    normalizeGen v = normalizeVerify v ∧
    normalizePreview v = normalizeSend v ∧
    (normalizeGen v).isSome = (normalizePreview v).isSome ∧
    normalizeGen v = (normalizePreview v).map lower := by
  refine ⟨(normalizeVerify_eq_gen v).symm, rfl, ?_, normalizeGen_eq_map_lower v⟩
  rw [normalizeGen_eq_map_lower v]
  cases normalizePreview v <;> rfl

/-- C5: the registrant named "Ada Lovelace" with raw email " Ada@Example.com "
is classified needs-invite against an empty membership index, and the invite
the preview script builds from that row has firstName "Ada", lastName
"Lovelace", the stripped case-preserving email "Ada@Example.com", and
inviteRole "1". -/
theorem c5_ada_example :
    classifyRow []
        { name := some (pyStr "Ada Lovelace"), email := some (pyStr " Ada@Example.com ") } =
      Category.needsInvite ∧
    (previewInvite
        { name := some (pyStr "Ada Lovelace"), email := some (pyStr " Ada@Example.com ") }).map
        Invite.firstName = some (pyStr "Ada") ∧
    (previewInvite
        { name := some (pyStr "Ada Lovelace"), email := some (pyStr " Ada@Example.com ") }).map
        Invite.lastName = some (pyStr "Lovelace") ∧
    (previewInvite
        { name := some (pyStr "Ada Lovelace"), email := some (pyStr " Ada@Example.com ") }).map
        Invite.email = some (pyStr "Ada@Example.com") ∧
    (previewInvite
        { name := some (pyStr "Ada Lovelace"), email := some (pyStr " Ada@Example.com ") }).map
        Invite.inviteRole = some (pyStr "1") := by
  decide

/-- C6: when the needs-invite partition is empty the uninvited-list run
raises no error: the report stage takes the informational early return and
never reaches the output-file write. -/
theorem c6_empty_needs_no_write (emails : List PyStr) (rows : List Registrant)
    (h : (classifyAll emails rows).needs = []) :
    genPipeline emails rows = GenReport.noneFound ∧
    ∀ l, genPipeline emails rows ≠ GenReport.wroteFile l := by
  have hm : maskSelect rows (uninvitedMask emails rows) = [] := by
    rw [maskSelect_uninvited, h]
  constructor
  · unfold genPipeline
    rw [hm]
    rfl
  · intro l
    unfold genPipeline
    rw [hm]
    simp [reportStep]

/-- Closed instantiation of C6 at a one-row input whose only row is skipped. -/
theorem c6_empty_needs_no_write_witness :
    genPipeline [] [{ name := some (pyStr "No Email"), email := some (pyStr "nan") }] =
      GenReport.noneFound :=
  (c6_empty_needs_no_write [] [{ name := some (pyStr "No Email"), email := some (pyStr "nan") }]
    (by decide)).1

/-- C7: on a transport error the membership fetch of the uninvited-list and
of the verification script aborts with exit code 1, while
`send_invites_batch` returns a failure result and the sending script's main
runs on to normal termination with a failure summary and no retry. -/
theorem c7_transport_error (e : HttpError) :
    getExistingMembersGen (Except.error e) = FetchOutcome.exited 1 ∧
    getExistingMembersVerify (Except.error e) = FetchOutcome.exited 1 ∧
    (∀ invites role msg,
       (send_invites_batch invites role msg (Except.error e)).2 =
         { success := false, error := some e }) ∧
    (∀ rows role,
       sendMain rows yesStr role (Except.error e) =
         SendOutcome.completed
           { invites := (buildRawInvites rows).map (toApiInvite defaultMessage), role := role }
           false) := by
  refine ⟨rfl, rfl, fun _ _ _ => rfl, fun rows role => ?_⟩
  have hc : ¬ (lower yesStr ≠ yesStr) := by decide
  unfold sendMain
  rw [if_neg hc]
  rfl

/-- C8 counterexample: the operator response "YES" is not the string "yes",
yet the run does not abort: the batch POST is issued. The claim that every
response other than "yes" aborts is therefore false; the guard is
case-insensitive. -/
theorem c8_confirmation_counterexample :
    pyStr "YES" ≠ yesStr ∧
    sendMain [] (pyStr "YES") defaultPermission (Except.ok ()) ≠ SendOutcome.aborted ∧
    sendMain [] (pyStr "YES") defaultPermission (Except.ok ()) =
      SendOutcome.completed { invites := [], role := defaultPermission } true := by
  decide

/-- C8 amended: for every operator response whose lower-casing is not "yes",
the run aborts before the batch POST is ever issued; responses equal to
"yes" after lower-casing proceed to the send. -/
theorem c8_confirmation_amended (rows : List Registrant) (confirmation role : PyStr)
    (resp : Except HttpError Unit) (h : lower confirmation ≠ yesStr) :
    sendMain rows confirmation role resp = SendOutcome.aborted := by
  unfold sendMain
  rw [if_pos h]

/-- Closed instantiation of the amended C8 at the response "no". -/
theorem c8_confirmation_amended_witness :
    sendMain [] (pyStr "no") defaultPermission (Except.ok ()) = SendOutcome.aborted :=
  c8_confirmation_amended [] (pyStr "no") defaultPermission (Except.ok ()) (by decide)

/-- C9: normalization is idempotent: whenever normalization produces
Some t, normalizing t again produces Some t unchanged. -/
theorem c9_normalization_idempotent (v : Option PyStr) (t : PyStr)
    (h : normalizeGen v = some t) : normalizeGen (some t) = some t := by
  cases v with
  | none => exact absurd h (by simp [normalizeGen])
  | some s =>
    have h3 : (if lower (strip s) = [] ∨ lower (strip s) = nanStr then none
               else some (lower (strip s))) = some t := h
    by_cases hc : lower (strip s) = [] ∨ lower (strip s) = nanStr
    · rw [if_pos hc] at h3
      exact absurd h3 (by simp)
    · rw [if_neg hc] at h3
      injection h3 with ht
      have hst : strip t = t := by
        rw [← ht, strip_lower, strip_strip]
      have hlt : lower t = t := by
        rw [← ht, lower_lower]
      have key : lower (strip t) = t := by rw [hst, hlt]
      have hc2 : ¬ (t = [] ∨ t = nanStr) := by
        rw [ht] at hc
        exact hc
      show (if lower (strip t) = [] ∨ lower (strip t) = nanStr then none
            else some (lower (strip t))) = some t
      rw [key, if_neg hc2]

/-- Closed instantiation of C9: the output of normalizing " Ada@Example.com "
normalizes to itself. -/
theorem c9_normalization_idempotent_witness :
    normalizeGen (some (pyStr "ada@example.com")) = some (pyStr "ada@example.com") :=
  c9_normalization_idempotent (some (pyStr " Ada@Example.com ")) (pyStr "ada@example.com")
    (by decide)

/-- C10: after the index is built from any member list, an email is in the
membership set exactly when it is a key of the detail dict; consequently the
detail lookup attached to any already-member classification finds an
entry. -/
theorem c10_index_sync (ms : List RemoteMember) :
    (∀ k, k ∈ (buildIndex ms).emails ↔ (lookupAssoc (buildIndex ms).details k).isSome = true) ∧
    (∀ r info, classifyRowV (buildIndex ms) r = RowResult.alreadyMember info →
       info.isSome = true) := by
  refine ⟨buildIndex_syncInv ms, ?_⟩
  intro r info h
  unfold classifyRowV at h
  cases hn : normalizeVerify r.email with
  | none =>
    rw [hn] at h
    exact RowResult.noConfusion h
  | some e =>
    rw [hn] at h
    have h3 : (if e ∈ (buildIndex ms).emails then
        RowResult.alreadyMember (lookupAssoc (buildIndex ms).details e)
      else RowResult.needsInvite) = RowResult.alreadyMember info := h
    by_cases he : e ∈ (buildIndex ms).emails
    · rw [if_pos he] at h3
      injection h3 with h2
      rw [← h2]
      exact (buildIndex_syncInv ms e).mp he
    · rw [if_neg he] at h3
      exact RowResult.noConfusion h3

/-- Closed instantiation of C10 at a one-member response: the lower-cased
email is a dict key because it is in the set. -/
theorem c10_index_sync_witness :
    (lookupAssoc
      (buildIndex [{ email := some (pyStr "G@X.com"), firstName := some (pyStr "Grace"),
                     lastName := some (pyStr "Hopper"), role := none }]).details
      (pyStr "g@x.com")).isSome = true :=
  ((c10_index_sync [{ email := some (pyStr "G@X.com"), firstName := some (pyStr "Grace"),
                      lastName := some (pyStr "Hopper"), role := none }]).1
    (pyStr "g@x.com")).mp (by decide)

end PennsieveSync
